import Mathlib

/-!
Verification of the sequans-rs Monarch 2 modem driver core.

This file shallowly embeds the parts of the driver needed to settle the
frozen claims: the `Clock` response parser (`src/monarch2/src/command/device/responses.rs`),
the high-level modem operations (`src/monarch2/src/modem.rs`), the URC handler,
the `Nullable`/`Reserved`/`Bool` wire types (`src/monarch2/src/command/types.rs`,
`src/monarch2/src/command/mod.rs`), and the AT request wire format.

Strings at wire boundaries are modelled as `List Char`; the Rust code slices
byte-wise, which coincides with char positions for the ASCII inputs these
formats use.  Machine integers are modelled as `Nat`/`Int` with explicit range
checks where the Rust code has them.
-/

/- ### Clock parsing (command/device/responses.rs) -/

/-- Any modem time below 1 Jan 2023 00:00:00 UTC is considered an invalid time
(`MODEM_MIN_VALID_TIMESTAMP` in responses.rs). -/
def MODEM_MIN_VALID_TIMESTAMP : Int := 1672531200

/-- Model of `jiff::Zoned` restricted to what the driver constructs: an instant
(seconds since the unix epoch; the parser only ever produces whole seconds)
paired with a fixed-offset time zone (seconds east of UTC). -/
structure Zoned where
  tsSecs : Int
  offsetSecs : Int
deriving DecidableEq, Repr

/-- `Zoned::new(Timestamp::UNIX_EPOCH, TimeZone::UTC)`. -/
def unixEpochUTC : Zoned := ⟨0, 0⟩

/-- `Clock` response struct: the current timestamp. -/
structure Clock where
  time : Zoned
deriving DecidableEq, Repr

/-- A run of decimal digits, as consumed by Rust's `str::parse::<i32>` after
the optional sign: at least one char, all ASCII digits. -/
def parseDigits (cs : List Char) : Option Nat :=
  if cs ≠ [] ∧ cs.all Char.isDigit then
    some (cs.foldl (fun a c => a * 10 + (c.toNat - 48)) 0)
  else none

/-- Rust `str::parse::<i32>`: optional `+`/`-` sign, then digits; values
outside the i32 range are an error. -/
def parseI32 (cs : List Char) : Option Int :=
  match cs with
  | '+' :: rest => (parseDigits rest).bind
      (fun n => if n ≤ 2147483647 then some (n : Int) else none)
  | '-' :: rest => (parseDigits rest).bind
      (fun n => if n ≤ 2147483648 then some (-(n : Int)) else none)
  | _ => (parseDigits cs).bind
      (fun n => if n ≤ 2147483647 then some (n : Int) else none)

def isLeapYear (y : Int) : Bool :=
  (y % 4 == 0 && y % 100 != 0) || (y % 400 == 0)

def daysInMonth (y : Int) (m : Nat) : Nat :=
  match m with
  | 1 => 31
  | 2 => if isLeapYear y then 29 else 28
  | 3 => 31
  | 4 => 30
  | 5 => 31
  | 6 => 30
  | 7 => 31
  | 8 => 31
  | 9 => 30
  | 10 => 31
  | 11 => 30
  | 12 => 31
  | _ => 0

/-- Days from the unix epoch to the civil date y-m-d in the proleptic
Gregorian calendar (the conversion `jiff` performs when turning a civil
datetime in a fixed-offset zone into a timestamp). -/
def daysFromCivil (y : Int) (m d : Nat) : Int :=
  let yy : Int := if m ≤ 2 then y - 1 else y
  let era : Int := (if 0 ≤ yy then yy else yy - 399) / 400
  let yoe : Int := yy - era * 400
  let mp : Int := if 2 < m then (m : Int) - 3 else (m : Int) + 9
  let doy : Int := (153 * mp + 2) / 5 + (d : Int) - 1
  let doe : Int := yoe * 365 + yoe / 4 - yoe / 100 + doy
  era * 146097 + doe - 719468

/-- A civil datetime as produced by `DateTime::strptime`. -/
structure CivilDateTime where
  year : Int
  month : Nat
  day : Nat
  hour : Nat
  minute : Nat
  second : Nat
deriving DecidableEq, Repr

/-- Seconds from the unix epoch to this civil datetime read in UTC. -/
def civilToUnix (c : CivilDateTime) : Int :=
  daysFromCivil c.year c.month c.day * 86400
    + (c.hour : Int) * 3600 + (c.minute : Int) * 60 + (c.second : Int)

def parse2 (a b : Char) : Option Nat :=
  if a.isDigit && b.isDigit then some ((a.toNat - 48) * 10 + (b.toNat - 48))
  else none

/-- `DateTime::strptime("%y/%m/%d,%H:%M:%S", _)` on the 17-char slice
`s[0..17]`: two-digit fields at fixed positions with `/ / , : :` separators,
POSIX two-digit-year pivot (69–99 maps to 19xx, 00–68 to 20xx), and field
range validation. -/
def strptimeClock (cs : List Char) : Option CivilDateTime :=
  match cs with
  | [y1, y2, a, m1, m2, b, d1, d2, c, h1, h2, e, n1, n2, f, s1, s2] =>
    if a == '/' && b == '/' && c == ',' && e == ':' && f == ':' then
      match parse2 y1 y2, parse2 m1 m2, parse2 d1 d2,
            parse2 h1 h2, parse2 n1 n2, parse2 s1 s2 with
      | some yy, some mo, some dd, some hh, some mi, some ss =>
        let year : Int := if 69 ≤ yy then 1900 + (yy : Int) else 2000 + (yy : Int)
        if 1 ≤ mo && mo ≤ 12 && 1 ≤ dd && dd ≤ daysInMonth year mo
            && hh ≤ 23 && mi ≤ 59 && ss ≤ 59 then
          some ⟨year, mo, dd, hh, mi, ss⟩
        else none
      | _, _, _, _, _, _ => none
    else none
  | _ => none

/-- The field extraction of `Clock::from_str` (responses.rs lines 38–60):
length check, datetime slice `s[0..17]`, sign char at index 17, quarter-hour
count parsed from `s[18..]`, offset seconds (negated exactly when the sign
char is `'-'`), and the instant of the parsed civil datetime in that
fixed-offset zone.  Returns `(instant, offsetSecs)`.  A failure of
`Offset::from_seconds(..).unwrap()` (offset beyond jiff's ±25:59:59 range)
aborts the Rust program; it is modelled as `none` (no successful return). -/
def clockFields (s : List Char) : Option (Int × Int) :=
  if s.length < 20 then none
  else
    match s.get? 17, parseI32 (s.drop 18) with
    | some tzSign, some q =>
      let offsetSecs : Int := if tzSign == '-' then -q * 15 * 60 else q * 15 * 60
      if offsetSecs < -93599 ∨ 93599 < offsetSecs then none
      else
        match strptimeClock (s.take 17) with
        | some cdt => some (civilToUnix cdt - offsetSecs, offsetSecs)
        | none => none
    | _, _ => none

/-- `Clock::from_str` (responses.rs lines 38–69): parse the fields, then
coerce any instant strictly before 2023-01-01T00:00:00Z to
`UNIX_EPOCH` in the UTC zone. -/
def Clock.fromStr (s : List Char) : Option Clock :=
  match clockFields s with
  | none => none
  | some (t, off) =>
    if t < MODEM_MIN_VALID_TIMESTAMP then some ⟨unixEpochUTC⟩
    else some ⟨⟨t, off⟩⟩

/- ### Clock parsing at the byte level

`Clock::from_str` mixes byte indexing and char indexing: `s.len()`,
`s[0..17]` and `s[18..]` count UTF-8 bytes, while `s.chars().nth(17)` counts
chars.  A Rust `&str` is exactly a sequence of chars read through its UTF-8
encoding, so the byte-level model below keeps `List Char` as the input type
and computes byte positions from each char's UTF-8 size.  Byte slicing at a
position that is not a char boundary makes the Rust program panic; the model
keeps that outcome apart from the parser's own `Err(InvalidFormat)`. -/

/-- Outcome of a `Clock::from_str` call, with the two failure modes the Rust
program has kept apart: `err` is `Err(ClockParseError::InvalidFormat)`;
`panicked` is an abort — a byte slice taken off a char boundary, or the
`Offset::from_seconds(..).unwrap()` on an out-of-range offset. -/
inductive FromStrResult where
  | ok (c : Clock)
  | err
  | panicked
deriving DecidableEq, Repr

/-- `s.len()` of the Rust `&str`: the length in UTF-8 bytes. -/
def byteLen (s : List Char) : Nat := (s.map Char.utf8Size).sum

/-- The byte slice `&s[0..n]` of a UTF-8 string given as its char sequence:
the chars occupying bytes `[0, n)`.  `none` when the slice panics — byte
index `n` falls inside a char's encoding, or past the end of the string. -/
def takeBytes : List Char → Nat → Option (List Char)
  | _, 0 => some []
  | [], _ + 1 => none
  | c :: rest, n + 1 =>
    if c.utf8Size ≤ n + 1 then
      (takeBytes rest (n + 1 - c.utf8Size)).map (fun l => c :: l)
    else none

/-- The byte slice `&s[n..]` of a UTF-8 string given as its char sequence.
`none` when the slice panics — byte index `n` falls inside a char's
encoding, or past the end of the string. -/
def dropBytes : List Char → Nat → Option (List Char)
  | s, 0 => some s
  | [], _ + 1 => none
  | c :: rest, n + 1 =>
    if c.utf8Size ≤ n + 1 then dropBytes rest (n + 1 - c.utf8Size) else none

/-- `Clock::from_str` (responses.rs lines 38–69) with byte-exact indexing,
in the Rust evaluation order: reject byte lengths < 20; take the byte slice
`s[0..17]` (panic off a char boundary); take the 18th char
(`s.chars().nth(17)`, `Err` when absent); take the byte slice `s[18..]`
(panic off a char boundary); parse the quarter-hour count as i32; negate
exactly when the sign char is `'-'`; abort when the offset exceeds jiff's
±93599 s range; run strptime on the 17-byte prefix (a prefix containing a
multi-byte char has fewer than 17 chars and cannot match the all-ASCII
format, so the fixed 17-char pattern of `strptimeClock` is exact); finally
coerce instants before 2023-01-01T00:00:00Z to the epoch sentinel. -/
def Clock.fromStrBytes (s : List Char) : FromStrResult :=
  if byteLen s < 20 then .err
  else
    match takeBytes s 17 with
    | none => .panicked
    | some dateTimeStr =>
      match s.get? 17 with
      | none => .err
      | some tzSign =>
        match dropBytes s 18 with
        | none => .panicked
        | some offStr =>
          match parseI32 offStr with
          | none => .err
          | some q =>
            let offsetSecs : Int :=
              if tzSign == '-' then -q * 15 * 60 else q * 15 * 60
            if offsetSecs < -93599 ∨ 93599 < offsetSecs then .panicked
            else
              match strptimeClock dateTimeStr with
              | none => .err
              | some cdt =>
                if civilToUnix cdt - offsetSecs < MODEM_MIN_VALID_TIMESTAMP then
                  .ok ⟨unixEpochUTC⟩
                else .ok ⟨⟨civilToUnix cdt - offsetSecs, offsetSecs⟩⟩

/- ### Error type (error.rs) -/

/-- MQTT status codes (command/mqtt/types.rs). -/
inductive MQTTStatusCode where
  | Success
  | NoMem
  | Protocol
  | Inval
  | NoConn
  | ConnRefused
  | NotFound
  | ConnLost
  | Tls
  | PayloadSize
  | NotSupported
  | Auth
  | AclDenied
  | Unknown
  | Errno
  | Eai
  | Proxy
  | Unavailable
deriving DecidableEq, Repr

/-- Driver error type (error.rs).  The payloads of `AT` and `Timeout`
(`atat::Error`, `embassy_time::TimeoutError`) are external to the driver and
carry no information the claims need. -/
inductive Error where
  | AT
  | Timeout
  | ClockSynchronization
  | MQTT (rc : MQTTStatusCode)
deriving DecidableEq, Repr

/- ### get_time (modem.rs lines 318–346) -/

/-- `clock.time.0.timestamp().is_zero()`: the instant is the unix epoch. -/
def Clock.timestampIsZero (c : Clock) : Bool := c.time.tsSecs == 0

/-- Observable steps taken by a high-level operation, in order: an AT
`GetClock` request, the `lte_connect` / `lte_disconnect` workflows, and a
`Timer::after` sleep of `n` milliseconds. -/
inductive ModemEvent where
  | getClock
  | lteConnect
  | lteDisconnect
  | delayMs (n : Nat)
deriving DecidableEq, Repr

/-- The retry loop of `get_time`: `for _ in 0..5` do: sleep 500 ms, issue
`GetClock`, break when the clock is no longer the epoch sentinel.  `resp k`
is the clock returned by the k-th `GetClock` of the whole `get_time` call
(the environment); `cur` is the clock variable being overwritten; the result
pairs the events performed with the final clock value. -/
def getTimeLoop (resp : Nat → Clock) : Nat → Nat → Clock → List ModemEvent × Clock
  | _, 0, cur => ([], cur)
  | k, n+1, _ =>
    let c := resp k
    if c.timestampIsZero then
      let r := getTimeLoop resp (k+1) n c
      (.delayMs 500 :: .getClock :: r.1, r.2)
    else ([.delayMs 500, .getClock], c)

/-- `Modem::get_time` (modem.rs lines 318–346) in an execution where every AT
send succeeds and `lte_connect` / `lte_disconnect` complete: issue `GetClock`;
if the clock is the epoch sentinel, `lte_connect`, run the retry loop,
`lte_disconnect`, and fail with `ClockSynchronization` when the clock is
still the sentinel; otherwise return the clock. -/
def getTime (resp : Nat → Clock) : List ModemEvent × Except Error Clock :=
  let clock := resp 0
  if clock.timestampIsZero then
    let r := getTimeLoop resp 1 5 clock
    let events := .getClock :: .lteConnect :: (r.1 ++ [.lteDisconnect])
    if r.2.timestampIsZero then (events, .error .ClockSynchronization)
    else (events, .ok r.2)
  else ([.getClock], .ok clock)

/-- The event trace of a `get_time` call that found the sentinel and made
`k` retry iterations. -/
def retryTrace (k : Nat) : List ModemEvent :=
  .getClock :: .lteConnect ::
    ((List.replicate k [ModemEvent.delayMs 500, ModemEvent.getClock]).flatten
      ++ [ModemEvent.lteDisconnect])

/- ### mqtt_connect (modem.rs lines 558–579) -/

/-- `+SQNSMQTTONCONNECT` URC payload (command/mqtt/urc.rs `Connected`). -/
structure Connected where
  id : Nat
  rc : MQTTStatusCode
deriving DecidableEq, Repr

/-- The decision `mqtt_connect` takes after `lte_connect` and the
`+SQNSMQTTCONNECT` send both succeeded (modem.rs lines 569–578).
`waitResult` is the outcome of `with_timeout(30 s, mqtt_connected.wait())`:
the first `+SQNSMQTTONCONNECT` URC delivered within the window, or `none` on
timeout (which the `?` operator converts to `Error::Timeout`). -/
def mqttConnect (waitResult : Option Connected) : Except Error Unit :=
  match waitResult with
  | none => .error .Timeout
  | some connected =>
    match connected.rc with
    | .Success => .ok ()
    | status => .error (.MQTT status)

/- ### nvm_write (modem.rs lines 620–650) -/

/-- Type of NVM data (command/nvm/types.rs). -/
inductive DataType where
  | Certificate
  | Privatekey
deriving DecidableEq, Repr

/-- The two transmissions `nvm_write` makes: `nvm::PrepareWrite` (prefix
`+SQNSNVW` with data type, index and size) and the raw `nvm::Write` block
streaming the payload bytes. -/
inductive NvmCmd where
  | prepareWrite (dataType : DataType) (index : Nat) (size : Nat)
  | write (data : List Nat)
deriving DecidableEq, Repr

/-- `Modem::nvm_write` (modem.rs lines 620–650).  `index` is the `u8`
argument; `data` the payload bytes.  The Rust code first runs
`assert!(!(0..=4).contains(&index) && !(7..=10).contains(&index))`, which
panics before anything is sent; the panic is modelled as `none`.  Otherwise
it sends `PrepareWrite { data_type, index, size: data.len() }` followed by
`Write { data }`. -/
def nvmWrite (dataType : DataType) (index : Nat) (data : List Nat) :
    Option (List NvmCmd) :=
  if ¬ (¬ (0 ≤ index ∧ index ≤ 4) ∧ ¬ (7 ≤ index ∧ index ≤ 10)) then none
  else some [.prepareWrite dataType index data.length, .write data]

/- ### Nullable, Reserved, Bool (command/types.rs, command/mod.rs) -/

/-- An AT token serialisation for a value type: `encode` renders the value as
the bytes of one comma-delimited token, `decode` parses one token's bytes
(`none` on a deserialisation error).  This is the interface the serde
`Serialize`/`Deserialize` impls of the wire types provide. -/
structure AtCodec (α : Type) where
  encode : α → List Nat
  decode : List Nat → Option α

/-- `Nullable<T>` (command/types.rs): variants `Some(T)` and `None`. -/
inductive Nullable (α : Type) where
  | none
  | some (val : α)
deriving DecidableEq, Repr

/-- `Serialize for Nullable<T>` (command/types.rs lines 101–114):
`None` serialises as empty bytes (`serializer.serialize_bytes(&[])`),
`Some(t)` as `t`'s own serialisation. -/
def Nullable.serialize (c : AtCodec α) : Nullable α → List Nat
  | .none => []
  | .some t => c.encode t

/-- `Deserialize for Nullable<T>` (command/types.rs lines 86–99): attempt
`T::deserialize` on the token; on success wrap in `Some`, on any error fall
back to `None`. -/
def Nullable.deserialize (c : AtCodec α) (token : List Nat) : Nullable α :=
  match c.decode token with
  | Option.some v => .some v
  | Option.none => .none

/-- `Reserved` (command/mod.rs lines 71–113): a zero-payload placeholder. -/
structure Reserved where
deriving DecidableEq, Repr

/-- The AT serialisation of `Reserved` (command/mod.rs): `Serialize` writes
empty bytes; `Deserialize` uses a visitor whose `visit_bytes` ignores the
content and always succeeds, so every token — the empty one included —
decodes to `Reserved`. -/
def reservedCodec : AtCodec Reserved :=
  ⟨fun _ => [], fun _ => Option.some ⟨⟩⟩

/-- `Bool` (command/types.rs): the modem boolean, `False = 0`, `True = 1`.
Named `MBool` because `Bool` is taken by Lean's built-in booleans. -/
inductive MBool where
  | False
  | True
deriving DecidableEq, Repr

/-- The AT serialisation of the modem `Bool` (derived `AtatEnum` over `u8`):
the single digit `0` or `1` (bytes 48 / 49); any other token is an
`InvalidField` error. -/
def mboolCodec : AtCodec MBool :=
  ⟨fun b => match b with
    | .False => [48]
    | .True => [49],
   fun t =>
    if t = [48] then Option.some .False
    else if t = [49] then Option.some .True
    else Option.none⟩

/- ### URC dispatch and the URC handler (command/mod.rs, modem.rs 87–133) -/

/-- Network registration states (command/network/types.rs). -/
inductive NetworkRegistrationState where
  | NotSearching
  | RegisteredHome
  | Searching
  | Denied
  | Unknown
  | RegisteredRoaming
  | RegisteredSmsOnlyHome
  | RegisteredSmsOnlyRoaming
  | AttachedEmergencyOnly
  | RegisteredCsfbNotPreferredHome
  | RegisteredCsfbNotPreferredRoaming
  | RegisteredTempConnLoss
deriving DecidableEq, Repr

/-- `+CEREG` URC payload (command/network/urc.rs `NetworkRegistrationStatus`). -/
structure NetworkRegistrationStatus where
  stat : NetworkRegistrationState
deriving DecidableEq, Repr

/-- MQTT QoS levels (command/mqtt/types.rs). -/
inductive Qos where
  | AtMostOnce
  | AtLeastOnce
  | ExactlyOnce
deriving DecidableEq, Repr

/-- `+SQNSMQTTONDISCONNECT` URC payload (command/mqtt/urc.rs). -/
structure Disconnected where
  id : Nat
  rc : MQTTStatusCode
deriving DecidableEq, Repr

/-- `+SQNSMQTTONPUBLISH` URC payload (command/mqtt/urc.rs `PublishResponse`). -/
structure PublishResponse where
  id : Nat
  pmid : Nat
  rc : MQTTStatusCode
deriving DecidableEq, Repr

/-- `+SQNSMQTTONMESSAGE` URC payload (command/mqtt/urc.rs `Received`). -/
structure Received where
  id : Nat
  topic : List Char
  msgLength : Nat
  qos : Qos
  mid : Option Nat
deriving DecidableEq, Repr

/-- `+SQNSMQTTONSUBSCRIBE` URC payload (command/mqtt/urc.rs `Subscribed`). -/
structure Subscribed where
  id : Nat
  topic : List Char
  rc : MQTTStatusCode
deriving DecidableEq, Repr

/-- `+SQNSMQTTPUBLISH` prompt URC payload (command/mqtt/urc.rs
`PromptToPublish`). -/
structure PromptToPublish where
  pmid : Nat
deriving DecidableEq, Repr

/-- `+SQNCOAPCONNECTED` URC payload (command/coap/urc.rs `Connected`). -/
structure CoapConnected where
  id : Nat
  serverAddress : List Char
  port : Nat
  localPort : Nat
  dtlsEnabled : MBool
deriving DecidableEq, Repr

/-- Satellite entry of a GNSS fix (command/gnss/urc.rs `SateliteInfo`). -/
structure SateliteInfo where
  satNo : List Char
  signalStrength : Nat
deriving DecidableEq, Repr

/-- `+LPGNSSFIXREADY` URC payload (command/gnss/urc.rs `GnssFixReady`).  The
`QuotedF32` fields (confidence, lat, long, elev, speeds) are single-precision
floats and are not shallowly embeddable; the URC handler never inspects them,
it forwards the whole payload to the fix signal, so they are left out of the
model. -/
structure GnssFixReady where
  fixId : Nat
  timestamp : CivilDateTime
  ttf : Nat
  rawData : List Char
  sats : Option (List SateliteInfo)
deriving DecidableEq, Repr

/-- The URC tagged union (command/mod.rs `Urc`), one variant per URC prefix. -/
inductive Urc where
  | GnssFixReady (fixReady : GnssFixReady)
  | MqttConnected (connected : Connected)
  | MqttDisconnected (disconnected : Disconnected)
  | MqttMessagePublished (published : PublishResponse)
  | MqttMessageReceived (received : Received)
  | MqttSubscribed (subscribed : Subscribed)
  | MqttPromptToPublish (prompt : PromptToPublish)
  | Shutdown
  | Start
  | NetworkRegistrationStatus (status : NetworkRegistrationStatus)
  | CoapConnected (conn : CoapConnected)
deriving DecidableEq, Repr

/-- `ModemState` (modem.rs lines 41–59): the registration state latched from
`+CEREG`, and the two single-slot signals modelled as `Option` slots holding
the last signalled value. -/
structure ModemState where
  regState : NetworkRegistrationState
  mqttConnected : Option Connected
  fixSubscriber : Option GnssFixReady
deriving DecidableEq, Repr

/-- `ModemState::new()`: registration state starts at `NotSearching`, both
signals empty. -/
def ModemState.new : ModemState :=
  ⟨.NotSearching, Option.none, Option.none⟩

/-- One iteration of `UrcHandler::run` (modem.rs lines 87–133): the match on
the received URC.  `GnssFixReady` and `MqttConnected` signal their payloads;
`NetworkRegistrationStatus` stores `status.stat` into `reg_state`; every
other variant only logs. -/
def urcStep (s : ModemState) (msg : Urc) : ModemState :=
  match msg with
  | .GnssFixReady fixReady => { s with fixSubscriber := Option.some fixReady }
  | .MqttConnected connected => { s with mqttConnected := Option.some connected }
  | .MqttDisconnected _ => s
  | .MqttMessagePublished _ => s
  | .MqttMessageReceived _ => s
  | .MqttSubscribed _ => s
  | .MqttPromptToPublish _ => s
  | .Shutdown => s
  | .Start => s
  | .NetworkRegistrationStatus status => { s with regState := status.stat }
  | .CoapConnected _ => s

/-- The URC handler processing a finite sequence of URC records in order. -/
def processUrcs (s : ModemState) (msgs : List Urc) : ModemState :=
  msgs.foldl urcStep s

/-- The `stat` field of the last `+CEREG` record of the sequence, if any. -/
def lastCereg : List Urc → Option NetworkRegistrationState
  | [] => Option.none
  | msg :: rest =>
    match lastCereg rest with
    | Option.some st => Option.some st
    | Option.none =>
      match msg with
      | .NetworkRegistrationStatus status => Option.some status.stat
      | _ => Option.none

/- ### begin (modem.rs lines 189–207) -/

/-- CME error reporting methods (command/system_features/types.rs). -/
inductive CMEErrorReports where
  | Off
  | Numeric
  | Verbose
deriving DecidableEq, Repr

/-- CEREG unsolicited reporting methods (command/system_features/types.rs). -/
inductive CEREGReports where
  | Off
  | Enabled
  | EnabledWithLocation
  | EnabledWithLocationEmmCause
  | EnabledUePsmWithLocation
  | EnabledUePsmWithLocationEmmCause
deriving DecidableEq, BEq, Repr

/-- The two configuration commands `begin` can transmit
(command/system_features/mod.rs). -/
inductive ConfigCmd where
  | configureCMEErrorReports (typ : CMEErrorReports)
  | configureCEREGReports (typ : CEREGReports)
deriving DecidableEq, BEq, Repr

/-- `AT+CMEE=1` as sent by `begin`. -/
def cmeeCmd : ConfigCmd := .configureCMEErrorReports .Numeric

/-- `AT+CEREG=1` as sent by `begin`. -/
def ceregCmd : ConfigCmd := .configureCEREGReports .Enabled

/-- `Modem::begin` (modem.rs lines 189–207) acting on the `initialized`
flag.  `sendOk c` tells whether the transport send of `c` succeeds (a failed
send still transmits the command line before the error response arrives).
Returns the new flag, the commands transmitted by this call, and the result:
if already initialized, return `Ok` at once sending nothing; otherwise send
`+CMEE=1` then `+CEREG=1`, propagating a send error with `?` (the flag is
only set after both sends succeed). -/
def begin (sendOk : ConfigCmd → Bool) (initialized : Bool) :
    Bool × List ConfigCmd × Except Error Unit :=
  if initialized then (true, [], .ok ())
  else if sendOk cmeeCmd = false then (false, [cmeeCmd], .error .AT)
  else if sendOk ceregCmd = false then (false, [cmeeCmd, ceregCmd], .error .AT)
  else (true, [cmeeCmd, ceregCmd], .ok ())

/-- A sequence of `n` successive `begin` calls on one modem starting from
flag state `st`: the list of (commands transmitted, result) per call, and
the final flag. -/
def beginSeq (sendOk : ConfigCmd → Bool) :
    Nat → Bool → List (List ConfigCmd × Except Error Unit) × Bool
  | 0, st => ([], st)
  | n+1, st =>
    let r := begin sendOk st
    let rest := beginSeq sendOk n r.1
    ((r.2.1, r.2.2) :: rest.1, rest.2)

/- ### AT request wire format and mqtt_send (modem.rs 581–607) -/

/-- One positional argument of an AT request, already typed for the wire:
a bare decimal numeric, a double-quoted string, or raw bytes streamed
verbatim. -/
inductive AtArg where
  | nat (n : Nat)
  | str (s : List Char)
  | raw (bytes : List Char)
deriving DecidableEq, Repr

/-- Modelled from the spec: the rendering of a single argument in the AT
request wire format of section 4.1 — "String arguments are wrapped in double
quotes; numeric arguments are bare decimal" — and raw-byte fields are
streamed unchanged.  The encoder itself lives in the external `atat`
serde implementation, not under src/. -/
def encodeArg : AtArg → List Char
  | .nat n => Nat.toDigits 10 n
  | .str s => '"' :: (s ++ ['"'])
  | .raw bytes => bytes

/-- Modelled from the spec: the AT request line of section 4.1,
`cmdPfx ++ pfx ++ sep ++ arg0 , arg1 … ++ termination`, where `sep` is `=`
when there is at least one argument and `value_sep` is true, else empty,
and arguments are comma-separated in declaration order.  The encoder itself
lives in the external `atat` serde implementation, not under src/. -/
def encodeCmdLine (cmdPfx : List Char) (pfx : List Char) (valueSep : Bool)
    (termination : List Char) (args : List AtArg) : List Char :=
  let sep : List Char := if args ≠ [] ∧ valueSep then ['='] else []
  cmdPfx ++ pfx ++ sep
    ++ (List.intercalate [','] (args.map encodeArg)) ++ termination

/-- The integer discriminant of a `Qos` value (`#[at_enum(u8)]`,
command/mqtt/types.rs): `AtMostOnce = 0`, `AtLeastOnce = 1`,
`ExactlyOnce = 2`. -/
def Qos.discriminant : Qos → Nat
  | .AtMostOnce => 0
  | .AtLeastOnce => 1
  | .ExactlyOnce => 2

/-- The wire line of `mqtt::PreparePublish` (command/mqtt/mod.rs lines
98–117): prefix `+SQNSMQTTPUBLISH`, default command prefix `AT`, default
`value_sep`, termination `"\r"` (no line feed); positional arguments `id`
(bare numeric), `topic` (quoted string), `qos` (enum discriminant; the field
is an `Option` and `mqtt_send` always passes `Some`, an interior present
value encoded as its discriminant), `length` (bare numeric). -/
def preparePublishLine (id : Nat) (topic : List Char) (qos : Qos)
    (length : Nat) : List Char :=
  encodeCmdLine ("AT").toList ("+SQNSMQTTPUBLISH").toList true ['\r']
    [.nat id, .str topic, .nat qos.discriminant, .nat length]

/-- The wire block of `mqtt::Publish` (command/mqtt/mod.rs lines 121–135):
empty prefix, `cmd_prefix = ""`, `termination = ""`, `value_sep = false`,
and a single raw-bytes payload argument — the payload bytes with no command
prefix, no separator and no terminator. -/
def publishBlock (payload : List Char) : List Char :=
  encodeCmdLine [] [] false [] [.raw payload]

/-- `Modem::mqtt_send` (modem.rs lines 581–607): transmit
`PreparePublish { id: 0, topic, qos: Some(qos), length: data.len() }`
followed by `Publish { payload: data }`; the two wire transmissions in
order. -/
def mqttSendWire (topic : List Char) (qos : Qos) (data : List Char) :
    List (List Char) :=
  [preparePublishLine 0 topic qos data.length, publishBlock data]

/- ### Concrete inputs used to exercise the theorems -/

/-- The clock string of the repo test `test_valid_clock_with_old_timestamp`:
its instant (2020-01-01T00:00:00Z = 1577836800) predates 2023. -/
def oldClockInput : List Char := ("20/01/01,00:00:00+00").toList

/-- The clock string of the repo test `test_valid_clock_with_valid_timestamp`. -/
def validClockInput : List Char := ("24/05/30,13:22:45+08").toList

/-- The valid clock string with `*` in the sign position. -/
def starClockInput : List Char := ("24/05/30,13:22:45*08").toList

/-- The typographic minus sign U+2212, a 3-byte char in UTF-8. -/
def u2212 : Char := Char.ofNat 8722

/-- The clock string with the typographic minus U+2212 in the sign position:
22 bytes long (so past the length check) with parsable date-time and offset
digits, but byte 18 falls inside the 3-byte sign character. -/
def minusSignClockInput : List Char :=
  ("24/05/30,13:22:45").toList ++ u2212 :: ("08").toList

/-- A `GetClock` environment: the epoch sentinel until the third query
(overall index 2), which returns a synchronized clock. -/
def respSample : Nat → Clock :=
  fun n => if n == 2 then ⟨⟨1717068165, 7200⟩⟩ else ⟨⟨0, 0⟩⟩

/-- A `GetClock` environment that never synchronizes. -/
def respNeverSync : Nat → Clock := fun _ => ⟨⟨0, 0⟩⟩

/-- A transport on which every send succeeds. -/
def allOk : ConfigCmd → Bool := fun _ => true

/- ### C1: Clock parsing coerces pre-2023 instants to the epoch sentinel -/

/-- C1.  For every input string s on which Clock parsing succeeds, the result
is the sentinel `UNIX_EPOCH` in the UTC zone if and only if the instant
computed from s's date, time and quarter-hour offset fields is strictly
before 2023-01-01T00:00:00Z (unix second 1672531200); otherwise the computed
instant is returned unchanged, in its parsed offset zone. -/
theorem clock_fromStr_sentinel (s : List Char) (c : Clock) (t off : Int)
    (hf : clockFields s = some (t, off)) (h : Clock.fromStr s = some c) :
    (c.time = unixEpochUTC ↔ t < MODEM_MIN_VALID_TIMESTAMP)
    ∧ (MODEM_MIN_VALID_TIMESTAMP ≤ t → c = ⟨⟨t, off⟩⟩) := by
  have hdef : Clock.fromStr s
      = if t < MODEM_MIN_VALID_TIMESTAMP then some ⟨unixEpochUTC⟩
        else some ⟨⟨t, off⟩⟩ := by
    unfold Clock.fromStr
    rw [hf]
  rw [hdef] at h
  by_cases ht : t < MODEM_MIN_VALID_TIMESTAMP
  · rw [if_pos ht] at h
    obtain rfl : (⟨unixEpochUTC⟩ : Clock) = c := Option.some.inj h
    exact ⟨⟨fun _ => ht, fun _ => rfl⟩, fun hge => absurd ht (not_lt.mpr hge)⟩
  · rw [if_neg ht] at h
    obtain rfl : (⟨⟨t, off⟩⟩ : Clock) = c := Option.some.inj h
    refine ⟨⟨fun he => ?_, fun hlt => absurd hlt ht⟩, fun _ => rfl⟩
    exfalso
    apply ht
    have hts : t = 0 := by
      have h0 := congrArg Zoned.tsSecs he
      simpa [unixEpochUTC] using h0
    rw [hts]
    decide

/-- Witness for C1 at the repo's own old-timestamp test vector. -/
theorem clock_fromStr_sentinel_witness :
    ((Clock.mk unixEpochUTC).time = unixEpochUTC
        ↔ (1577836800 : Int) < MODEM_MIN_VALID_TIMESTAMP)
    ∧ (MODEM_MIN_VALID_TIMESTAMP ≤ (1577836800 : Int)
        → Clock.mk unixEpochUTC = ⟨⟨1577836800, 0⟩⟩) :=
  clock_fromStr_sentinel oldClockInput (Clock.mk unixEpochUTC) 1577836800 0
    (by decide) (by decide)

/- ### C10: the sign position, at the byte level -/

/-- A string of single-byte chars occupies exactly one byte per char. -/
theorem byteLen_ascii (pre : List Char) (hpre : ∀ c ∈ pre, c.utf8Size = 1) :
    byteLen pre = pre.length := by
  induction pre with
  | nil => rfl
  | cons c t ih =>
    have hc : c.utf8Size = 1 := hpre c (by simp)
    have ih' := ih (fun x hx => hpre x (by simp [hx]))
    simp only [byteLen, List.map_cons, List.sum_cons, List.length_cons, hc]
    simp only [byteLen] at ih'
    omega

/-- Slicing `&s[0..n]` at the end of an all-ASCII prefix of length `n`
succeeds and yields that prefix. -/
theorem takeBytes_ascii (pre rest : List Char)
    (hpre : ∀ c ∈ pre, c.utf8Size = 1) :
    takeBytes (pre ++ rest) pre.length = some pre := by
  induction pre with
  | nil =>
    simp only [List.nil_append, List.length_nil]
    cases rest <;> rfl
  | cons c t ih =>
    have hc : c.utf8Size = 1 := hpre c (by simp)
    have ih' := ih (fun x hx => hpre x (by simp [hx]))
    simp [takeBytes, hc, ih']

/-- Slicing `&s[n..]` at the end of an all-ASCII prefix of length `n`
succeeds and yields the remainder. -/
theorem dropBytes_ascii (pre rest : List Char)
    (hpre : ∀ c ∈ pre, c.utf8Size = 1) :
    dropBytes (pre ++ rest) pre.length = some rest := by
  induction pre with
  | nil =>
    simp only [List.nil_append, List.length_nil]
    cases rest <;> rfl
  | cons c t ih =>
    have hc : c.utf8Size = 1 := hpre c (by simp)
    have ih' := ih (fun x hx => hpre x (by simp [hx]))
    simp [dropBytes, hc, ih']

/-- Slicing `&s[n+1..]` one byte into a multi-byte char that follows an
all-ASCII prefix of length `n` is off a char boundary: the slice panics. -/
theorem dropBytes_midchar (pre : List Char) (ch : Char) (post : List Char)
    (hpre : ∀ c ∈ pre, c.utf8Size = 1) (hch : 2 ≤ ch.utf8Size) :
    dropBytes (pre ++ ch :: post) (pre.length + 1) = none := by
  induction pre with
  | nil =>
    have hnot : ¬ ch.utf8Size ≤ 1 := by omega
    simp [dropBytes, hnot]
  | cons c t ih =>
    have hc : c.utf8Size = 1 := hpre c (by simp)
    have ih' := ih (fun x hx => hpre x (by simp [hx]))
    simp [dropBytes, hc, ih']

/-- With a 17-char all-ASCII prefix, an ASCII sign character other than `'-'`
parses exactly like `'+'` at the byte level. -/
theorem fromStrBytes_sign (pre : List Char) (ch : Char) (post : List Char)
    (hlen : pre.length = 17) (hpre : ∀ c ∈ pre, c.utf8Size = 1)
    (hch1 : ch.utf8Size = 1) (hch : ch ≠ '-') :
    Clock.fromStrBytes (pre ++ ch :: post)
      = Clock.fromStrBytes (pre ++ '+' :: post) := by
  have hplus : ('+' : Char).utf8Size = 1 := by decide
  have hpre1 : byteLen pre = 17 := by rw [byteLen_ascii pre hpre, hlen]
  have hblen : ∀ c : Char, c.utf8Size = 1 →
      byteLen (pre ++ c :: post) = 18 + byteLen post := by
    intro c hc
    simp only [byteLen, List.map_append, List.sum_append, List.map_cons,
      List.sum_cons, hc]
    simp only [byteLen] at hpre1
    omega
  have htake : ∀ c : Char, takeBytes (pre ++ c :: post) 17 = some pre := by
    intro c
    rw [← hlen]
    exact takeBytes_ascii pre _ hpre
  have hget : ∀ c : Char, (pre ++ c :: post)[17]? = some c := by
    intro c
    rw [← hlen, List.getElem?_append_right (Nat.le_refl _), Nat.sub_self]
    simp
  have hdrop : ∀ c : Char, c.utf8Size = 1 →
      dropBytes (pre ++ c :: post) 18 = some post := by
    intro c hc
    have hsplit : pre ++ c :: post = (pre ++ [c]) ++ post := by simp
    have h18 : (pre ++ [c]).length = 18 := by simp [hlen]
    have hpre' : ∀ x ∈ pre ++ [c], x.utf8Size = 1 := by
      intro x hx
      rcases List.mem_append.mp hx with h | h
      · exact hpre x h
      · simp only [List.mem_singleton] at h
        subst h
        exact hc
    rw [hsplit, ← h18]
    exact dropBytes_ascii _ _ hpre'
  have h2 : ('+' : Char) ≠ '-' := by decide
  cases hq : parseI32 post with
  | none =>
      simp [Clock.fromStrBytes, hblen ch hch1, hblen '+' hplus, htake, hget,
        hdrop ch hch1, hdrop '+' hplus, hq]
  | some q =>
      simp [Clock.fromStrBytes, hblen ch hch1, hblen '+' hplus, htake, hget,
        hdrop ch hch1, hdrop '+' hplus, hq, hch, h2]

/-- With a 17-char all-ASCII prefix and at least 20 bytes in total, a
multi-byte character in the sign position makes `Clock::from_str` panic:
byte index 18 falls inside that character, so the slice `&s[18..]` aborts. -/
theorem fromStrBytes_multibyte (pre : List Char) (ch : Char) (post : List Char)
    (hlen : pre.length = 17) (hpre : ∀ c ∈ pre, c.utf8Size = 1)
    (hch : 2 ≤ ch.utf8Size) (htot : 20 ≤ byteLen (pre ++ ch :: post)) :
    Clock.fromStrBytes (pre ++ ch :: post) = .panicked := by
  have hnot : ¬ byteLen (pre ++ ch :: post) < 20 := by omega
  have htake : takeBytes (pre ++ ch :: post) 17 = some pre := by
    rw [← hlen]
    exact takeBytes_ascii pre _ hpre
  have hget : (pre ++ ch :: post)[17]? = some ch := by
    rw [← hlen, List.getElem?_append_right (Nat.le_refl _), Nat.sub_self]
    simp
  have hdrop : dropBytes (pre ++ ch :: post) 18 = none := by
    have h18 : pre.length + 1 = 18 := by omega
    rw [← h18]
    exact dropBytes_midchar pre ch post hpre hch
  simp [Clock.fromStrBytes, hnot, htake, hget, hdrop]

/-- C10, counterexample to the claim as stated: the typographic minus U+2212
in the sign position gives a 22-byte string of valid length whose date-time
and offset-digit fields parse and whose sign character differs from `'-'`,
yet `Clock::from_str` does not accept it as a positive offset — it panics,
because byte index 18 (the start of `&s[18..]`) falls inside the 3-byte
sign character. -/
theorem clock_sign_counterexample :
    byteLen minusSignClockInput = 22
    ∧ minusSignClockInput.get? 17 = some u2212
    ∧ u2212 ≠ '-'
    ∧ Clock.fromStrBytes minusSignClockInput = .panicked := by
  decide

/-- C10, amended.  `Clock::from_str` negates the quarter-hour offset only
when the character at index 17 is `'-'`.  Any other single-byte (ASCII)
character in the sign position is accepted and treated as a positive
offset — it parses exactly like `'+'` — and in particular `'*'` parses
successfully to 2024-05-30T13:22:45+02:00 (+8 quarter-hours).  A multi-byte
character in the sign position is not accepted: the byte slice `&s[18..]`
starts inside it and `Clock::from_str` panics. -/
theorem clock_sign_position_bytes :
    (∀ (pre : List Char) (ch : Char) (post : List Char),
        pre.length = 17 → (∀ c ∈ pre, c.utf8Size = 1) →
        ch.utf8Size = 1 → ch ≠ '-' →
        Clock.fromStrBytes (pre ++ ch :: post)
          = Clock.fromStrBytes (pre ++ '+' :: post))
    ∧ (∀ (pre : List Char) (ch : Char) (post : List Char),
        pre.length = 17 → (∀ c ∈ pre, c.utf8Size = 1) →
        2 ≤ ch.utf8Size → 20 ≤ byteLen (pre ++ ch :: post) →
        Clock.fromStrBytes (pre ++ ch :: post) = .panicked)
    ∧ Clock.fromStrBytes starClockInput = .ok ⟨⟨1717068165, 7200⟩⟩ :=
  ⟨fromStrBytes_sign, fromStrBytes_multibyte, by decide⟩

/-- Witness for C10: the `'*'`-signed string parses exactly like the
`'+'`-signed one, and the U+2212-signed string panics. -/
theorem clock_sign_position_bytes_witness :
    Clock.fromStrBytes (("24/05/30,13:22:45").toList ++ '*' :: ("08").toList)
      = Clock.fromStrBytes (("24/05/30,13:22:45").toList ++ '+' :: ("08").toList)
    ∧ Clock.fromStrBytes
        (("24/05/30,13:22:45").toList ++ u2212 :: ("08").toList)
      = .panicked :=
  ⟨clock_sign_position_bytes.1 ("24/05/30,13:22:45").toList '*' ("08").toList
      (by decide) (by decide) (by decide) (by decide),
   clock_sign_position_bytes.2.1 ("24/05/30,13:22:45").toList u2212
      ("08").toList (by decide) (by decide) (by decide) (by decide)⟩

/- ### C2: get_time retry behaviour -/

/-- The retry loop when every queried clock is still the epoch sentinel:
all `n` iterations run (each sleeping 500 ms then querying) and the final
clock is the last response. -/
theorem getTimeLoop_all (resp : Nat → Clock) :
    ∀ (n k : Nat) (cur : Clock),
      (∀ i, i < n → (resp (k + i)).timestampIsZero = true) →
      getTimeLoop resp k n cur
        = ((List.replicate n [ModemEvent.delayMs 500, ModemEvent.getClock]).flatten,
           if n = 0 then cur else resp (k + n - 1)) := by
  intro n
  induction n with
  | zero =>
    intro k cur _
    simp [getTimeLoop]
  | succ m ih =>
    intro k cur h
    have h0 : (resp k).timestampIsZero = true := by simpa using h 0 (Nat.succ_pos m)
    have hrec := ih (k + 1) (resp k) (fun i hi => by
      have hz := h (i + 1) (Nat.succ_lt_succ hi)
      have hidx : k + (i + 1) = k + 1 + i := by omega
      rwa [hidx] at hz)
    simp only [getTimeLoop, h0, if_true]
    rw [hrec]
    cases m with
    | zero => simp
    | succ m' =>
      have hidx : k + 1 + (m' + 1) - 1 = k + (m' + 1 + 1) - 1 := by omega
      simp [List.replicate_succ, hidx]

/-- The retry loop when the response to the `j`-th query (zero-based from the
loop's first query) is the first non-sentinel one: `j + 1` iterations run and
the loop breaks returning that response. -/
theorem getTimeLoop_found (resp : Nat → Clock) :
    ∀ (n k j : Nat) (cur : Clock), j < n →
      (resp (k + j)).timestampIsZero = false →
      (∀ i, i < j → (resp (k + i)).timestampIsZero = true) →
      getTimeLoop resp k n cur
        = ((List.replicate (j + 1)
              [ModemEvent.delayMs 500, ModemEvent.getClock]).flatten,
           resp (k + j)) := by
  intro n
  induction n with
  | zero =>
    intro k j cur hj
    exact absurd hj (Nat.not_lt_zero j)
  | succ m ih =>
    intro k j cur hj hfound hbefore
    cases j with
    | zero =>
      have h0 : (resp k).timestampIsZero = false := by simpa using hfound
      simp [getTimeLoop, h0]
    | succ j' =>
      have h0 : (resp k).timestampIsZero = true := by
        simpa using hbefore 0 (Nat.succ_pos j')
      have hidx : k + (j' + 1) = k + 1 + j' := by omega
      have hrec := ih (k + 1) j' (resp k) (by omega) (by rwa [hidx] at hfound)
        (fun i hi => by
          have hz := hbefore (i + 1) (Nat.succ_lt_succ hi)
          have hidx' : k + (i + 1) = k + 1 + i := by omega
          rwa [hidx'] at hz)
      simp only [getTimeLoop, h0, if_true]
      rw [hrec]
      simp [List.replicate_succ, hidx]

/-- C2.  In every `get_time` execution whose first `GetClock` returns the
epoch sentinel, the modem performs `lte_connect` and then at most 5 further
`GetClock` attempts, each preceded by a 500 ms sleep.  If all five attempts
still return the sentinel it performs `lte_disconnect` and fails with
`ClockSynchronization`; if the `(j+1)`-th attempt is the first to return a
non-sentinel clock it stops retrying there, performs `lte_disconnect`, and
returns that clock. -/
theorem getTime_retry (resp : Nat → Clock)
    (h0 : (resp 0).timestampIsZero = true) :
    ((∀ i, i < 5 → (resp (i + 1)).timestampIsZero = true) →
        getTime resp = (retryTrace 5, .error .ClockSynchronization))
    ∧ (∀ j, j < 5 → (resp (j + 1)).timestampIsZero = false →
        (∀ i, i < j → (resp (i + 1)).timestampIsZero = true) →
        getTime resp = (retryTrace (j + 1), .ok (resp (j + 1)))) := by
  constructor
  · intro hall
    have hloop := getTimeLoop_all resp 5 1 (resp 0) (fun i hi => by
      have hz := hall i hi
      have hidx : i + 1 = 1 + i := by omega
      rwa [hidx] at hz)
    have h5 : (resp 5).timestampIsZero = true := by
      have := hall 4 (by omega)
      simpa using this
    simp only [getTime, h0, if_true]
    rw [hloop]
    simp [retryTrace, h5]
  · intro j hj hfound hbefore
    have hidx : j + 1 = 1 + j := by omega
    have hloop := getTimeLoop_found resp 5 1 j (resp 0) hj
      (by rwa [hidx] at hfound)
      (fun i hi => by
        have hz := hbefore i hi
        have hidx' : i + 1 = 1 + i := by omega
        rwa [hidx'] at hz)
    simp only [getTime, h0, if_true]
    rw [hloop]
    have hfound' : (resp (1 + j)).timestampIsZero = false := by rwa [hidx] at hfound
    have hresp : resp (j + 1) = resp (1 + j) := by rw [hidx]
    simp [retryTrace, hfound', hresp]

/-- Witness for C2: with the sentinel returned twice and attempt 2 (overall
query index 2) synchronized, `get_time` makes two retry iterations,
disconnects, and returns the synchronized clock. -/
theorem getTime_retry_witness :
    getTime respSample = (retryTrace 2, .ok (respSample 2)) :=
  (getTime_retry respSample (by decide)).2 1 (by decide) (by decide)
    (fun i hi => by interval_cases i; decide)

/- ### C3: mqtt_connect result vs the first +SQNSMQTTONCONNECT URC -/

/-- C3.  `mqtt_connect` returns `Ok` if and only if the wait on
`mqtt_connected` yields (within the 30 s window) a `+SQNSMQTTONCONNECT`
URC whose `rc` is `Success`; a URC with any other `rc` makes it return
`MQTT(rc)`; no URC within the window makes it return `Timeout`. -/
theorem mqttConnect_urc (w : Option Connected) :
    (mqttConnect w = .ok () ↔ ∃ c, w = some c ∧ c.rc = .Success)
    ∧ (∀ c, w = some c → c.rc ≠ .Success → mqttConnect w = .error (.MQTT c.rc))
    ∧ (w = none → mqttConnect w = .error .Timeout) := by
  refine ⟨?_, ?_, ?_⟩
  · cases w with
    | none => simp [mqttConnect]
    | some c => cases hc : c.rc <;> simp [mqttConnect, hc]
  · intro c hw hrc
    subst hw
    cases hc : c.rc
    case Success => exact absurd hc hrc
    all_goals simp [mqttConnect, hc]
  · intro hw
    subst hw
    rfl

/-- Witness for C3: the three outcomes at concrete wait results. -/
theorem mqttConnect_urc_witness :
    mqttConnect (some ⟨0, .Success⟩) = .ok ()
    ∧ mqttConnect (some ⟨0, .ConnRefused⟩) = .error (.MQTT .ConnRefused)
    ∧ mqttConnect none = .error .Timeout :=
  ⟨(mqttConnect_urc (some ⟨0, .Success⟩)).1.mpr ⟨⟨0, .Success⟩, rfl, rfl⟩,
   (mqttConnect_urc (some ⟨0, .ConnRefused⟩)).2.1 ⟨0, .ConnRefused⟩ rfl
     (by decide),
   (mqttConnect_urc none).2.2 rfl⟩

/- ### C4: nvm_write index assertion -/

/-- C4.  For every index in `0..=4` or `7..=10` the assertion in `nvm_write`
fires (modelled as `none`) before anything reaches the transport; for every
index in `{5, 6}` or `≥ 11` the assertion passes and `nvm_write` issues
`PrepareWrite { kind, index, size = data.len() }` followed by the raw
`Write { data }`. -/
theorem nvmWrite_assert (dataType : DataType) (index : Nat) (data : List Nat) :
    ((index ≤ 4 ∨ (7 ≤ index ∧ index ≤ 10)) →
        nvmWrite dataType index data = none)
    ∧ ((index = 5 ∨ index = 6 ∨ 11 ≤ index) →
        nvmWrite dataType index data
          = some [.prepareWrite dataType index data.length, .write data]) := by
  constructor
  · intro h
    unfold nvmWrite
    rw [if_pos (by omega)]
  · intro h
    unfold nvmWrite
    rw [if_neg (by omega)]

/-- Witness for C4: the reserved index 3 panics without transport traffic
(the spec's own scenario `nvm_write(Certificate, 3, &[])`), while index 5
issues the prepare-then-stream pair. -/
theorem nvmWrite_assert_witness :
    nvmWrite .Certificate 3 [] = none
    ∧ nvmWrite .Certificate 5 [65]
        = some [.prepareWrite .Certificate 5 1, .write [65]] :=
  ⟨(nvmWrite_assert .Certificate 3 []).1 (by omega),
   (nvmWrite_assert .Certificate 5 [65]).2 (by omega)⟩

/- ### C5: Nullable encoding and decoding -/

/-- C5, counterexample to the claim as stated: `Reserved` is a type with an
AT serialisation whose decoder accepts every token, the empty one included,
so decoding the empty token as `Nullable<Reserved>` yields `Some(Reserved)`,
not `None`. -/
theorem nullable_empty_counterexample :
    ¬ Nullable.deserialize reservedCodec [] = Nullable.none := by
  decide

/-- C5, amended.  For every type with an AT serialisation: encoding
`Nullable::None` produces an empty token; decoding an empty token yields
`None` whenever the inner type's own decoder rejects the empty token; and
decoding any token the inner type decodes successfully yields `Some` of
that value. -/
theorem nullable_roundtrip (α : Type) (c : AtCodec α) :
    Nullable.serialize c .none = []
    ∧ (c.decode [] = Option.none → Nullable.deserialize c [] = .none)
    ∧ (∀ t v, c.decode t = Option.some v →
        Nullable.deserialize c t = .some v) := by
  refine ⟨rfl, ?_, ?_⟩
  · intro h
    simp [Nullable.deserialize, h]
  · intro t v h
    simp [Nullable.deserialize, h]

/-- Witness for C5 at the modem `Bool` codec, which rejects the empty token
and decodes the token `1` (byte 49) to `True`. -/
theorem nullable_roundtrip_witness :
    Nullable.deserialize mboolCodec [] = Nullable.none
    ∧ Nullable.deserialize mboolCodec [49] = Nullable.some MBool.True :=
  ⟨(nullable_roundtrip MBool mboolCodec).2.1 (by decide),
   (nullable_roundtrip MBool mboolCodec).2.2 [49] .True (by decide)⟩

/- ### C7: the URC handler latches the last +CEREG stat -/

/-- After the URC handler processes a sequence from any starting state, the
registration state is the `stat` of the last `+CEREG` record, or the
starting value when there is none. -/
theorem processUrcs_regState (s : ModemState) (msgs : List Urc) :
    (processUrcs s msgs).regState = (lastCereg msgs).getD s.regState := by
  induction msgs generalizing s with
  | nil => rfl
  | cons u t ih =>
    have hstep : processUrcs s (u :: t) = processUrcs (urcStep s u) t := rfl
    rw [hstep, ih (urcStep s u)]
    cases hl : lastCereg t with
    | some st => simp [lastCereg, hl]
    | none =>
      simp only [lastCereg, hl]
      cases u <;> simp [urcStep]

/-- C7.  For every finite sequence of URC records processed by the URC
handler, the resulting `reg_state` equals the `stat` of the last `+CEREG`
record in the sequence, and keeps its initial value `NotSearching` when the
sequence contains no `+CEREG`; no other URC variant changes `reg_state`. -/
theorem urcHandler_last_cereg (msgs : List Urc) :
    (processUrcs ModemState.new msgs).regState
      = (lastCereg msgs).getD NetworkRegistrationState.NotSearching :=
  processUrcs_regState ModemState.new msgs

/- ### C8: begin is idempotent and configures exactly once -/

/-- Once the `initialized` flag is set, any further sequence of `begin`
calls transmits nothing and returns `Ok` each time. -/
theorem beginSeq_initialized (sendOk : ConfigCmd → Bool) :
    ∀ m, beginSeq sendOk m true = (List.replicate m ([], Except.ok ()), true) := by
  intro m
  induction m with
  | zero => rfl
  | succ m' ih => simp [beginSeq, begin, ih, List.replicate_succ]

/-- Flattening any number of empty per-call command lists yields nothing. -/
theorem flatten_replicate_nil (n : Nat) :
    (List.replicate n ([] : List ConfigCmd)).flatten = [] := by
  induction n with
  | zero => rfl
  | succ m ih => simp [List.replicate_succ, ih]

/-- C8.  `begin()` is idempotent: a call on an already-initialized modem
transmits nothing and returns `Ok` (first conjunct, no assumption on the
transport); and over any sequence of `n + 1` calls on one modem whose sends
succeed, the first call transmits `+CMEE=1` then `+CEREG=1` and returns
`Ok`, every later call transmits nothing and returns `Ok`, so each of the
two configuration commands is transmitted exactly once. -/
theorem begin_idempotent (sendOk : ConfigCmd → Bool) (n : Nat)
    (hok : ∀ c, sendOk c = true) :
    begin sendOk true = (true, [], .ok ())
    ∧ (beginSeq sendOk (n + 1) false).1
        = ([cmeeCmd, ceregCmd], Except.ok ()) :: List.replicate n ([], Except.ok ())
    ∧ (((beginSeq sendOk (n + 1) false).1.map Prod.fst).flatten.count cmeeCmd = 1
        ∧ ((beginSeq sendOk (n + 1) false).1.map Prod.fst).flatten.count ceregCmd
            = 1) := by
  have hfirst : begin sendOk false = (true, [cmeeCmd, ceregCmd], .ok ()) := by
    simp [begin, hok]
  have hruns : (beginSeq sendOk (n + 1) false).1
      = ([cmeeCmd, ceregCmd], Except.ok ()) :: List.replicate n ([], Except.ok ()) := by
    simp [beginSeq, hfirst, beginSeq_initialized sendOk n]
  have hcmds : ((beginSeq sendOk (n + 1) false).1.map Prod.fst).flatten
      = [cmeeCmd, ceregCmd] := by
    rw [hruns]
    simp [flatten_replicate_nil]
  refine ⟨rfl, hruns, ?_, ?_⟩ <;> rw [hcmds] <;> decide

/-- Witness for C8: three successive calls on a fully working transport. -/
theorem begin_idempotent_witness :
    begin allOk true = (true, [], .ok ())
    ∧ (beginSeq allOk 3 false).1
        = ([cmeeCmd, ceregCmd], Except.ok ())
            :: List.replicate 2 ([], Except.ok ())
    ∧ (((beginSeq allOk 3 false).1.map Prod.fst).flatten.count cmeeCmd = 1
        ∧ ((beginSeq allOk 3 false).1.map Prod.fst).flatten.count ceregCmd = 1) :=
  begin_idempotent allOk 2 (fun _ => rfl)

/- ### C9: the mqtt_send wire bytes -/

/-- C9.  `mqtt_send("t/x", AtLeastOnce, b"hi")` writes exactly the line
`AT+SQNSMQTTPUBLISH=0,"t/x",1,2` terminated by a single carriage return and
no line feed, followed by a second transmission of the raw bytes `hi` with
no prefix, separator or terminator. -/
theorem mqttSend_wire :
    mqttSendWire ("t/x").toList .AtLeastOnce ("hi").toList
      = [("AT+SQNSMQTTPUBLISH=0,\"t/x\",1,2\r").toList, ("hi").toList] := by
  decide
